import Mathlib

/-!
# go-nsq Producer: connection lifecycle and transaction routing

A shallow embedding of `producer.go`.  The `Producer` struct becomes a record
that is passed explicitly through every method.  The things a method does to
its collaborators (the external connection, the done channels, the logger,
the goroutines it starts) are recorded in history fields of that record, in
the order the method performs them.

Inputs that come from other tasks or from the network (the result of a write
or of the handshake, which `select` case fires, what the drain loop observes)
are arguments of the embedded method.

The numeric constants `StateInit`, `StateDisconnected`, `StateConnected`,
`FrameTypeResponse`, `FrameTypeError`, `FrameTypeContextCanceled` and
`FrameTypeContextDeadlineExceeded` are declared in files other than
`producer.go`; they are taken as a parameter (`Consts`).
-/

namespace NSQ

/-- Byte slices (`[]byte`); each byte is carried as a natural number. -/
abbrev Bytes := List Nat

/-- The int32 constants `producer.go` uses but does not declare. -/
structure Consts where
  StateInit : Int
  StateDisconnected : Int
  StateConnected : Int
  FrameTypeResponse : Int
  FrameTypeError : Int
  FrameTypeContextCanceled : Int
  FrameTypeContextDeadlineExceeded : Int
  deriving DecidableEq, Repr

/-- The three connection states are pairwise different numbers. -/
def Consts.statesDistinct (k : Consts) : Prop :=
  k.StateInit ≠ k.StateConnected ∧ k.StateDisconnected ≠ k.StateConnected ∧
    k.StateInit ≠ k.StateDisconnected

instance (k : Consts) : Decidable k.statesDistinct := by
  unfold Consts.statesDistinct; infer_instance

/-- The four frame types `producer.go` passes to `popTransaction` are pairwise
different numbers. -/
def Consts.framesDistinct (k : Consts) : Prop :=
  k.FrameTypeResponse ≠ k.FrameTypeError ∧
  k.FrameTypeResponse ≠ k.FrameTypeContextCanceled ∧
  k.FrameTypeResponse ≠ k.FrameTypeContextDeadlineExceeded ∧
  k.FrameTypeError ≠ k.FrameTypeContextCanceled ∧
  k.FrameTypeError ≠ k.FrameTypeContextDeadlineExceeded ∧
  k.FrameTypeContextCanceled ≠ k.FrameTypeContextDeadlineExceeded

instance (k : Consts) : Decidable k.framesDistinct := by
  unfold Consts.framesDistinct; infer_instance

/-- One assignment of the constants with pairwise different values, used to
evaluate the definitions on concrete inputs. -/
def sampleConsts : Consts :=
  { StateInit := 0, StateDisconnected := 1, StateConnected := 2,
    FrameTypeResponse := 0, FrameTypeError := 1,
    FrameTypeContextCanceled := 3, FrameTypeContextDeadlineExceeded := 4 }

/-- Error values.  `Canceled` and `DeadlineExceeded` are `context.Canceled` and
`context.DeadlineExceeded`; `ErrProtocol` carries `string(data)` as its bytes;
`other` is any error value that is none of the named ones. -/
inductive GoError where
  | ErrNotConnected
  | ErrStopped
  | ErrProtocol (Reason : Bytes)
  | Canceled
  | DeadlineExceeded
  | other (code : Nat)
  deriving DecidableEq, Repr

/-- The bytes of `err.Error()` for the two context errors (ASCII text). -/
def GoError.text : GoError → Bytes
  | .Canceled => "context canceled".toList.map Char.toNat
  | .DeadlineExceeded => "context deadline exceeded".toList.map Char.toNat
  | _ => []

/-- A `context.Context` value: `context.Background()` or one supplied by the caller. -/
inductive Context where
  | Background
  | user (id : Nat)
  deriving DecidableEq, Repr

/-- An encoded command, as returned by the command constructors `Nop`,
`Publish`, `MultiPublish` and `DeferredPublish`. -/
inductive Command where
  | Nop
  | Publish (topic : String) (body : Bytes)
  | MultiPublish (topic : String) (body : List Bytes)
  | DeferredPublish (topic : String) (delay : Int) (body : Bytes)
  deriving DecidableEq, Repr

/-- The struct `ProducerTransaction`.  `ptr` is the address of the struct: the
code handles transactions by pointer, so two transactions are the same one
exactly when their addresses agree.  `doneChan = none` is a nil channel and
`Error = none` is a nil error. -/
structure ProducerTransaction where
  ptr : Nat
  ctx : Context
  cmd : Command
  doneChan : Option Nat
  Error : Option GoError
  Args : List Nat
  deriving DecidableEq, Repr

/-- The log levels `producer.go` logs at. -/
inductive LogLevel where
  | LogLevelInfo
  | LogLevelError
  deriving DecidableEq, Repr

/-- The log lines of `producer.go`, one constructor per format string, with
the arguments the format is applied to (the address, which never changes, is
left out). -/
inductive LogLine where
  | stopping
  | connecting
  | errorConnecting (err : GoError)
  | sendingCommand (conn : Nat) (err : GoError)
  | unexpectedResponse (conn : Nat) (frameType : Int) (dataLen : Nat) (data : Bytes)
  | exitingRouter (conn : Nat)
  deriving DecidableEq, Repr

/-- Which task performs a write on the external connection. -/
inductive Task where
  | caller
  | router
  deriving DecidableEq, Repr

/-- The struct `Producer`, followed by the histories of what its methods did.

`conn` names the connection object `w.conn` points to (`0` before the first
`NewConn`), `wg` is the counter of the wait group, `exitChanClosed` and
`closeChanClosed` say whether the channel has been closed.

Histories, each in the order of occurrence: `finished` the calls of
`t.finish()` with the transaction as it was at the call, `sent` the values
delivered on done channels, `closed` the connections `Close()` was called on,
`written` the commands written to a connection and by which task, `logged` the
calls of `w.log`, `connsCreated` the number of `NewConn` calls,
`routersLaunched` the number of `go w.router()` statements executed,
`resetsLaunched` the number of goroutines started by `close`, `resetsDone`
the number of them that have run to their end. -/
structure Producer where
  conn : Nat
  transactions : List ProducerTransaction
  state : Int
  concurrentProducers : Int
  stopFlag : Int
  exitChanClosed : Bool
  closeChanClosed : Bool
  wg : Int
  finished : List ProducerTransaction
  sent : List (Nat × ProducerTransaction)
  closed : List Nat
  written : List (Task × Nat × Context × Command)
  logged : List (LogLevel × LogLine)
  connsCreated : Nat
  routersLaunched : Nat
  resetsLaunched : Nat
  resetsDone : Nat
  deriving DecidableEq, Repr

/-- Wrap-around of int32 arithmetic (`atomic.AddInt32`). -/
def wrapInt32 (x : Int) : Int := (x + 2147483648) % 4294967296 - 2147483648

/-- `ProducerTransaction.finish`: deliver the transaction on its done channel
when that channel is not nil.  The send is taken to complete. -/
def finish (w : Producer) (t : ProducerTransaction) : Producer :=
  let w := { w with finished := w.finished ++ [t] }
  match t.doneChan with
  | some c => { w with sent := w.sent ++ [(c, t)] }
  | none => w

/-- `Producer.log`: the call is recorded; whether a sink prints it depends on
the logger table, which is not modelled. -/
def log (w : Producer) (lvl : LogLevel) (line : LogLine) : Producer :=
  { w with logged := w.logged ++ [(lvl, line)] }

/-- `w.conn.Close()`. -/
def connClose (w : Producer) : Producer :=
  { w with closed := w.closed ++ [w.conn] }

/-- `Producer.close`: compare-and-swap of the state from `StateConnected` to
`StateDisconnected`; on success close the connection and start the goroutine
that later stores `StateInit` (see `resetState`). -/
def close (k : Consts) (w : Producer) : Producer :=
  if w.state = k.StateConnected then
    let w := { w with state := k.StateDisconnected }
    let w := connClose w
    { w with resetsLaunched := w.resetsLaunched + 1 }
  else w

/-- A goroutine started by `close` runs to its end: once the wait group is at
zero it stores `StateInit`.  Before that it is blocked in `w.wg.Wait()`. -/
def resetState (k : Consts) (w : Producer) : Producer :=
  if w.resetsDone < w.resetsLaunched ∧ w.wg = 0 then
    { w with state := k.StateInit, resetsDone := w.resetsDone + 1 }
  else w

/-- `Producer.popTransaction`. -/
def popTransaction (k : Consts) (w : Producer) (frameType : Int) (data : Bytes) : Producer :=
  match w.transactions with
  | [] =>
    let dataLen := data.length
    let data := if dataLen > 32 then data.take 32 else data
    let w := log w LogLevel.LogLevelError
      (LogLine.unexpectedResponse w.conn frameType dataLen data)
    close k w
  | t :: rest =>
    let w := { w with transactions := rest }
    let t :=
      if frameType = k.FrameTypeError then
        { t with Error := some (GoError.ErrProtocol data) }
      else if frameType = k.FrameTypeContextCanceled then
        { t with Error := some GoError.Canceled }
      else if frameType = k.FrameTypeContextDeadlineExceeded then
        { t with Error := some GoError.DeadlineExceeded }
      else t
    finish w t

/-- What one evaluation of the `select` in the drain loop of
`transactionCleanup` observes: a transaction waiting on `transactionChan`, or
none waiting, together with the value the in-flight-submitter counter has at
that moment (submitters change it from their own tasks). -/
inductive Poll where
  | recv (t : ProducerTransaction)
  | idle (concurrentProducers : Int)
  deriving DecidableEq, Repr

/-- First loop of `transactionCleanup`: every queued transaction gets
`ErrNotConnected` and is finished, in slice order. -/
def drainBacklog (w : Producer) : List ProducerTransaction → Producer
  | [] => w
  | t :: ts => drainBacklog (finish w { t with Error := some GoError.ErrNotConnected }) ts

/-- The part of `transactionCleanup` before its drain loop: the first loop,
then the truncation of the backlog to length zero. -/
def drained (w : Producer) : Producer :=
  { drainBacklog w w.transactions with transactions := [] }

/-- Second loop of `transactionCleanup`, run against the observations
`polls`.  The flag of the result says whether the loop has returned; it is
`false` when the observations end with the loop still spinning. -/
def spin (w : Producer) : List Poll → Producer × Bool
  | [] => (w, false)
  | Poll.recv t :: ps =>
    spin (finish w { t with Error := some GoError.ErrNotConnected }) ps
  | Poll.idle n :: ps =>
    let w := { w with concurrentProducers := n }
    if w.concurrentProducers = 0 then (w, true) else spin w ps

/-- `Producer.transactionCleanup`; `none` while the drain loop has not returned. -/
def transactionCleanup (w : Producer) (polls : List Poll) : Option Producer :=
  let r := spin (drained w) polls
  if r.2 then some r.1 else none

/-- The events the `select` of `Producer.router` waits for.  A transaction
arrives together with the result of writing its command (`none` for a nil
error). -/
inductive RouterEvent where
  | transaction (t : ProducerTransaction) (writeErr : Option GoError)
  | response (data : Bytes)
  | error (data : Bytes)
  | closeChan
  | exitChan
  deriving DecidableEq, Repr

/-- Whether the event makes the loop of `router` jump to `exit`. -/
def RouterEvent.isExit : RouterEvent → Bool
  | .closeChan => true
  | .exitChan => true
  | _ => false

/-- `w.conn.WriteCommandWithContext(ctx, cmd)` issued by `task`. -/
def connWrite (w : Producer) (task : Task) (ctx : Context) (cmd : Command) : Producer :=
  { w with written := w.written ++ [(task, w.conn, ctx, cmd)] }

/-- One iteration of the loop of `Producer.router` for an event that does not
leave the loop. -/
def routerStep (k : Consts) (w : Producer) : RouterEvent → Producer
  | .transaction t writeErr =>
    let w := { w with transactions := w.transactions ++ [t] }
    let w := connWrite w Task.router t.ctx t.cmd
    match writeErr with
    | none => w
    | some err =>
      let w := log w LogLevel.LogLevelError (LogLine.sendingCommand w.conn err)
      match err with
      | GoError.Canceled =>
        popTransaction k w k.FrameTypeContextCanceled err.text
      | GoError.DeadlineExceeded =>
        popTransaction k w k.FrameTypeContextDeadlineExceeded err.text
      | _ => close k w
  | .response data => popTransaction k w k.FrameTypeResponse data
  | .error data => popTransaction k w k.FrameTypeError data
  | .closeChan => w
  | .exitChan => w

/-- The loop of `Producer.router` run against the events `evs`: the state at
the jump to `exit`, or `none` when the events end with the loop still waiting
in `select`. -/
def routerLoop (k : Consts) (w : Producer) : List RouterEvent → Option Producer
  | [] => none
  | ev :: evs => if ev.isExit then some w else routerLoop k (routerStep k w ev) evs

/-- The state the loop of `Producer.router` is in after the events `evs`,
none of which leaves the loop. -/
def routerRun (k : Consts) (w : Producer) (evs : List RouterEvent) : Producer :=
  evs.foldl (routerStep k) w

/-- The part of `Producer.router` after the label `exit`. -/
def routerExit (w : Producer) (polls : List Poll) : Option Producer :=
  match transactionCleanup w polls with
  | none => none
  | some w =>
    let w := { w with wg := w.wg - 1 }
    some (log w LogLevel.LogLevelInfo (LogLine.exitingRouter w.conn))

/-- `Producer.router`: the loop, then the exit sequence. -/
def router (k : Consts) (w : Producer) (evs : List RouterEvent) (polls : List Poll) :
    Option Producer :=
  match routerLoop k w evs with
  | none => none
  | some w => routerExit w polls

/-- `Producer.connect`, run under the lock `w.guard`.  `handshake` is the
error returned by `w.conn.ConnectWithContext(ctx)` (`none` for nil).  The
logger settings pushed to the new connection do not touch the producer. -/
def connect (k : Consts) (w : Producer) (_ctx : Context) (handshake : Option GoError) :
    Option GoError × Producer :=
  if w.stopFlag = 1 then (some GoError.ErrStopped, w)
  else if w.state = k.StateConnected then (none, w)
  else if w.state ≠ k.StateInit then (some GoError.ErrNotConnected, w)
  else
    let w := log w LogLevel.LogLevelInfo LogLine.connecting
    let w := { w with conn := w.connsCreated + 1, connsCreated := w.connsCreated + 1 }
    match handshake with
    | some err =>
      let w := connClose w
      let w := log w LogLevel.LogLevelError (LogLine.errorConnecting err)
      (some err, w)
    | none =>
      let w := { w with state := k.StateConnected }
      let w := { w with closeChanClosed := false }
      let w := { w with wg := w.wg + 1 }
      let w := { w with routersLaunched := w.routersLaunched + 1 }
      (none, w)

/-- `Producer.Stop` up to its last statement: compare-and-swap of the stop
flag from 0 to 1; the caller that wins logs, closes `exitChan` and calls
`close`.  The final `w.wg.Wait()` only blocks and changes nothing. -/
def Stop (k : Consts) (w : Producer) : Producer :=
  if w.stopFlag = 0 then
    let w := { w with stopFlag := 1 }
    let w := log w LogLevel.LogLevelInfo LogLine.stopping
    let w := { w with exitChanClosed := true }
    close k w
  else w

/-- Which case of the `select` in `sendCommandAsync` fires: the Router (or the
drain loop) takes the transaction, `exitChan` is closed, or the context of the
caller is done with error `err`. -/
inductive Handoff where
  | accepted
  | exit
  | done (err : GoError)
  deriving DecidableEq, Repr

/-- `Producer.sendCommandAsync`.  `ptr` is the address of the transaction it
allocates.  The result is the returned error, the transaction handed over on
`transactionChan` (if the handoff happened) and the producer. -/
def sendCommandAsync (k : Consts) (w : Producer) (ptr : Nat) (ctx : Context) (cmd : Command)
    (doneChan : Option Nat) (args : List Nat) (handshake : Option GoError) (sel : Handoff) :
    Option GoError × Option ProducerTransaction × Producer :=
  let w := { w with concurrentProducers := wrapInt32 (w.concurrentProducers + 1) }
  let leave := fun (w : Producer) =>
    { w with concurrentProducers := wrapInt32 (w.concurrentProducers - 1) }
  let r := if w.state ≠ k.StateConnected then connect k w ctx handshake else (none, w)
  match r.1 with
  | some err => (some err, none, leave r.2)
  | none =>
    let t : ProducerTransaction :=
      { ptr := ptr, ctx := ctx, cmd := cmd, doneChan := doneChan, Error := none, Args := args }
    match sel with
    | Handoff.accepted => (none, some t, leave r.2)
    | Handoff.exit => (some GoError.ErrStopped, none, leave r.2)
    | Handoff.done err => (some err, none, leave r.2)

/-- `Producer.sendCommand`.  `chan` is the channel it makes and `reply` the
transaction it receives from that channel.  Closing `chan` on the error path
touches nothing of the producer. -/
def sendCommand (k : Consts) (w : Producer) (ptr : Nat) (chan : Nat) (ctx : Context)
    (cmd : Command) (handshake : Option GoError) (sel : Handoff) (reply : ProducerTransaction) :
    Option GoError × Option ProducerTransaction × Producer :=
  let r := sendCommandAsync k w ptr ctx cmd (some chan) [] handshake sel
  match r.1 with
  | some err => (some err, r.2.1, r.2.2)
  | none => (reply.Error, r.2.1, r.2.2)

/-- `Producer.PublishAsyncWithContext`. -/
def PublishAsyncWithContext (k : Consts) (w : Producer) (ptr : Nat) (ctx : Context)
    (topic : String) (body : Bytes) (doneChan : Option Nat) (args : List Nat)
    (handshake : Option GoError) (sel : Handoff) :
    Option GoError × Option ProducerTransaction × Producer :=
  sendCommandAsync k w ptr ctx (Command.Publish topic body) doneChan args handshake sel

/-- `Producer.PublishAsync`. -/
def PublishAsync (k : Consts) (w : Producer) (ptr : Nat) (topic : String) (body : Bytes)
    (doneChan : Option Nat) (args : List Nat) (handshake : Option GoError) (sel : Handoff) :
    Option GoError × Option ProducerTransaction × Producer :=
  PublishAsyncWithContext k w ptr Context.Background topic body doneChan args handshake sel

/-- `Producer.MultiPublishAsyncWithContext`.  `encodeErr` is the error of the
command constructor `MultiPublish` (`none` for nil). -/
def MultiPublishAsyncWithContext (k : Consts) (w : Producer) (ptr : Nat) (ctx : Context)
    (topic : String) (body : List Bytes) (encodeErr : Option GoError) (doneChan : Option Nat)
    (args : List Nat) (handshake : Option GoError) (sel : Handoff) :
    Option GoError × Option ProducerTransaction × Producer :=
  match encodeErr with
  | some err => (some err, none, w)
  | none =>
    sendCommandAsync k w ptr ctx (Command.MultiPublish topic body) doneChan args handshake sel

/-- `Producer.MultiPublishAsync`. -/
def MultiPublishAsync (k : Consts) (w : Producer) (ptr : Nat) (topic : String)
    (body : List Bytes) (encodeErr : Option GoError) (doneChan : Option Nat) (args : List Nat)
    (handshake : Option GoError) (sel : Handoff) :
    Option GoError × Option ProducerTransaction × Producer :=
  MultiPublishAsyncWithContext k w ptr Context.Background topic body encodeErr doneChan args
    handshake sel

/-- `Producer.PublishWithContext`. -/
def PublishWithContext (k : Consts) (w : Producer) (ptr : Nat) (chan : Nat) (ctx : Context)
    (topic : String) (body : Bytes) (handshake : Option GoError) (sel : Handoff)
    (reply : ProducerTransaction) : Option GoError × Option ProducerTransaction × Producer :=
  sendCommand k w ptr chan ctx (Command.Publish topic body) handshake sel reply

/-- `Producer.Publish`. -/
def Publish (k : Consts) (w : Producer) (ptr : Nat) (chan : Nat) (topic : String)
    (body : Bytes) (handshake : Option GoError) (sel : Handoff) (reply : ProducerTransaction) :
    Option GoError × Option ProducerTransaction × Producer :=
  PublishWithContext k w ptr chan Context.Background topic body handshake sel reply

/-- `Producer.MultiPublishWithContext`. -/
def MultiPublishWithContext (k : Consts) (w : Producer) (ptr : Nat) (chan : Nat)
    (ctx : Context) (topic : String) (body : List Bytes) (encodeErr : Option GoError)
    (handshake : Option GoError) (sel : Handoff) (reply : ProducerTransaction) :
    Option GoError × Option ProducerTransaction × Producer :=
  match encodeErr with
  | some err => (some err, none, w)
  | none => sendCommand k w ptr chan ctx (Command.MultiPublish topic body) handshake sel reply

/-- `Producer.MultiPublish`. -/
def MultiPublish (k : Consts) (w : Producer) (ptr : Nat) (chan : Nat) (topic : String)
    (body : List Bytes) (encodeErr : Option GoError) (handshake : Option GoError)
    (sel : Handoff) (reply : ProducerTransaction) :
    Option GoError × Option ProducerTransaction × Producer :=
  MultiPublishWithContext k w ptr chan Context.Background topic body encodeErr handshake sel
    reply

/-- `Producer.DeferredPublishWithContext`. -/
def DeferredPublishWithContext (k : Consts) (w : Producer) (ptr : Nat) (chan : Nat)
    (ctx : Context) (topic : String) (delay : Int) (body : Bytes) (handshake : Option GoError)
    (sel : Handoff) (reply : ProducerTransaction) :
    Option GoError × Option ProducerTransaction × Producer :=
  sendCommand k w ptr chan ctx (Command.DeferredPublish topic delay body) handshake sel reply

/-- `Producer.DeferredPublish`. -/
def DeferredPublish (k : Consts) (w : Producer) (ptr : Nat) (chan : Nat) (topic : String)
    (delay : Int) (body : Bytes) (handshake : Option GoError) (sel : Handoff)
    (reply : ProducerTransaction) : Option GoError × Option ProducerTransaction × Producer :=
  DeferredPublishWithContext k w ptr chan Context.Background topic delay body handshake sel
    reply

/-- `Producer.DeferredPublishAsyncWithContext`. -/
def DeferredPublishAsyncWithContext (k : Consts) (w : Producer) (ptr : Nat) (ctx : Context)
    (topic : String) (delay : Int) (body : Bytes) (doneChan : Option Nat) (args : List Nat)
    (handshake : Option GoError) (sel : Handoff) :
    Option GoError × Option ProducerTransaction × Producer :=
  sendCommandAsync k w ptr ctx (Command.DeferredPublish topic delay body) doneChan args
    handshake sel

/-- `Producer.DeferredPublishAsync`. -/
def DeferredPublishAsync (k : Consts) (w : Producer) (ptr : Nat) (topic : String)
    (delay : Int) (body : Bytes) (doneChan : Option Nat) (args : List Nat)
    (handshake : Option GoError) (sel : Handoff) :
    Option GoError × Option ProducerTransaction × Producer :=
  DeferredPublishAsyncWithContext k w ptr Context.Background topic delay body doneChan args
    handshake sel

/-- `Producer.PingWithContext`.  `writeErr` is the error returned by the write
of the `Nop` command. -/
def PingWithContext (k : Consts) (w : Producer) (ctx : Context) (handshake : Option GoError)
    (writeErr : Option GoError) : Option GoError × Producer :=
  let r := if w.state ≠ k.StateConnected then connect k w ctx handshake else (none, w)
  match r.1 with
  | some err => (some err, r.2)
  | none => (writeErr, connWrite r.2 Task.caller ctx Command.Nop)

/-- `Producer.Ping`. -/
def Ping (k : Consts) (w : Producer) (handshake : Option GoError) (writeErr : Option GoError) :
    Option GoError × Producer :=
  PingWithContext k w Context.Background handshake writeErr

/-- `Producer.onConnIOError`. -/
def onConnIOError (k : Consts) (w : Producer) : Producer := close k w

/-- `Producer.onConnClose`: closes `closeChan`. -/
def onConnClose (w : Producer) : Producer := { w with closeChanClosed := true }

/-- The state `transactionCleanup` has reached after the observations `polls`,
whether or not its drain loop has returned. -/
def cleanupProgress (w : Producer) (polls : List Poll) : Producer :=
  (spin (drained w) polls).1

/-- The operations of a producer, each with the inputs it takes from other
tasks. -/
inductive Op where
  | Stop
  | connect (ctx : Context) (handshake : Option GoError)
  | close
  | sendCommandAsync (ptr : Nat) (ctx : Context) (cmd : Command) (doneChan : Option Nat)
      (args : List Nat) (handshake : Option GoError) (sel : Handoff)
  | PingWithContext (ctx : Context) (handshake : Option GoError) (writeErr : Option GoError)
  | routerStep (ev : RouterEvent)
  | popTransaction (frameType : Int) (data : Bytes)
  | transactionCleanup (polls : List Poll)
  | routerExit (polls : List Poll)
  | resetState
  | onConnIOError
  | onConnClose
  deriving DecidableEq, Repr

/-- Whether the operation may call `connect`. -/
def Op.connects : Op → Bool
  | .connect _ _ => true
  | .sendCommandAsync _ _ _ _ _ _ _ => true
  | .PingWithContext _ _ _ => true
  | _ => false

/-- The producer after one operation. -/
def Op.apply (k : Consts) (w : Producer) : Op → Producer
  | .Stop => NSQ.Stop k w
  | .connect ctx handshake => (NSQ.connect k w ctx handshake).2
  | .close => NSQ.close k w
  | .sendCommandAsync ptr ctx cmd doneChan args handshake sel =>
    (NSQ.sendCommandAsync k w ptr ctx cmd doneChan args handshake sel).2.2
  | .PingWithContext ctx handshake writeErr => (NSQ.PingWithContext k w ctx handshake writeErr).2
  | .routerStep ev => NSQ.routerStep k w ev
  | .popTransaction frameType data => NSQ.popTransaction k w frameType data
  | .transactionCleanup polls => cleanupProgress w polls
  | .routerExit polls => (NSQ.routerExit w polls).getD (cleanupProgress w polls)
  | .resetState => NSQ.resetState k w
  | .onConnIOError => NSQ.onConnIOError k w
  | .onConnClose => NSQ.onConnClose w

/-- The producer after a sequence of operations. -/
def runOps (k : Consts) (w : Producer) (ops : List Op) : Producer :=
  ops.foldl (Op.apply k) w

/-- A frame the broker answers a command with: a response or an error. -/
inductive Frame where
  | response (data : Bytes)
  | error (data : Bytes)
  deriving DecidableEq, Repr

/-- The Router event the delegate callbacks `onConnResponse` and `onConnError`
turn a frame into. -/
def Frame.event : Frame → RouterEvent
  | .response data => RouterEvent.response data
  | .error data => RouterEvent.error data

/-- The outcome a frame stands for: a nil error for a response, `ErrProtocol`
with the payload of the frame for an error. -/
def Frame.outcome : Frame → Option GoError
  | .response _ => none
  | .error data => some (GoError.ErrProtocol data)

/-- The Router event of a transaction whose command is written without error. -/
def accepted (t : ProducerTransaction) : RouterEvent := RouterEvent.transaction t none

/-- The transactions the Router takes from `transactionChan` among the events. -/
def acceptedOf : List RouterEvent → List ProducerTransaction
  | [] => []
  | RouterEvent.transaction t _ :: evs => t :: acceptedOf evs
  | _ :: evs => acceptedOf evs

/-- The transactions the drain loop of `transactionCleanup` takes from
`transactionChan` before it returns. -/
def received : List Poll → List ProducerTransaction
  | [] => []
  | Poll.recv t :: ps => t :: received ps
  | Poll.idle n :: ps => if n = 0 then [] else received ps

/-- The addresses of a list of transactions. -/
def ptrs (ts : List ProducerTransaction) : List Nat := ts.map ProducerTransaction.ptr

/-- The transaction with `ErrNotConnected` stored in `Error`. -/
def notConnected (t : ProducerTransaction) : ProducerTransaction :=
  { t with Error := some GoError.ErrNotConnected }

/-- The producer built by `NewProducer`: every field of the struct that the
constructor does not set has its zero value. -/
def NewProducer : Producer :=
  { conn := 0, transactions := [], state := 0, concurrentProducers := 0, stopFlag := 0,
    exitChanClosed := false, closeChanClosed := false, wg := 0, finished := [], sent := [],
    closed := [], written := [], logged := [], connsCreated := 0, routersLaunched := 0,
    resetsLaunched := 0, resetsDone := 0 }

/-- A new producer after a successful `connect`, under `sampleConsts`. -/
def sampleConnected : Producer :=
  (connect sampleConsts NewProducer Context.Background none).2

/-- The transaction `sendCommandAsync` builds at address `n` for a publish
with done channel `n`. -/
def sampleTransaction (n : Nat) : ProducerTransaction :=
  { ptr := n, ctx := Context.user n, cmd := Command.Publish "topic" [n], doneChan := some n,
    Error := none, Args := [] }

/-- Between `w` and a later state `w2` the producer kept its connection
object and either did not close it, staying unconnected if it was, or was
connected and closed it once, ending unconnected. -/
def closeOnce (k : Consts) (w w2 : Producer) : Prop :=
  w2.conn = w.conn ∧
  ((w2.closed = w.closed ∧ (w.state ≠ k.StateConnected → w2.state ≠ k.StateConnected)) ∨
   (w.state = k.StateConnected ∧ w2.state ≠ k.StateConnected ∧
     w2.closed = w.closed ++ [w.conn]))

/-! ## Field lemmas -/

@[simp]
theorem finish_transactions (w : Producer) (t : ProducerTransaction) :
    (finish w t).transactions = w.transactions := by
  unfold finish; cases t.doneChan <;> rfl

@[simp]
theorem finish_finished (w : Producer) (t : ProducerTransaction) :
    (finish w t).finished = w.finished ++ [t] := by
  unfold finish; cases t.doneChan <;> rfl

@[simp]
theorem finish_state (w : Producer) (t : ProducerTransaction) :
    (finish w t).state = w.state := by
  unfold finish; cases t.doneChan <;> rfl

@[simp]
theorem finish_closed (w : Producer) (t : ProducerTransaction) :
    (finish w t).closed = w.closed := by
  unfold finish; cases t.doneChan <;> rfl

@[simp]
theorem finish_stopFlag (w : Producer) (t : ProducerTransaction) :
    (finish w t).stopFlag = w.stopFlag := by
  unfold finish; cases t.doneChan <;> rfl

@[simp]
theorem finish_written (w : Producer) (t : ProducerTransaction) :
    (finish w t).written = w.written := by
  unfold finish; cases t.doneChan <;> rfl

@[simp]
theorem finish_resetsLaunched (w : Producer) (t : ProducerTransaction) :
    (finish w t).resetsLaunched = w.resetsLaunched := by
  unfold finish; cases t.doneChan <;> rfl

theorem routerRun_append (k : Consts) (w : Producer) (xs ys : List RouterEvent) :
    routerRun k w (xs ++ ys) = routerRun k (routerRun k w xs) ys := by
  simp [routerRun, List.foldl_append]

theorem routerRun_cons (k : Consts) (w : Producer) (x : RouterEvent) (xs : List RouterEvent) :
    routerRun k w (x :: xs) = routerRun k (routerStep k w x) xs := rfl

/-- Accepting transactions whose writes succeed appends them to the backlog
and finishes nothing. -/
theorem routerRun_accepted (k : Consts) (ts : List ProducerTransaction) (w : Producer) :
    (routerRun k w (ts.map accepted)).transactions = w.transactions ++ ts ∧
    (routerRun k w (ts.map accepted)).finished = w.finished := by
  induction ts generalizing w with
  | nil => simp [routerRun]
  | cons t ts ih =>
    simp only [List.map_cons, routerRun_cons]
    obtain ⟨h1, h2⟩ := ih (routerStep k w (accepted t))
    rw [h1, h2]
    simp [accepted, routerStep, connWrite]

/-- A frame that meets a nonempty backlog finishes its head with the outcome
of the frame and leaves the rest. -/
theorem routerStep_frame_cons (k : Consts) (hk : k.framesDistinct) (w : Producer) (f : Frame)
    (t : ProducerTransaction) (rest : List ProducerTransaction)
    (hw : w.transactions = t :: rest) (ht : t.Error = none) :
    (routerStep k w f.event).transactions = rest ∧
    (routerStep k w f.event).finished = w.finished ++ [{ t with Error := f.outcome }] := by
  obtain ⟨h1, h2, h3, _⟩ := hk
  cases f with
  | response data =>
    have e : ({ t with Error := none } : ProducerTransaction) = t := by
      cases t; simp_all
    simp [Frame.event, Frame.outcome, routerStep, popTransaction, hw, h1, h2, h3, e]
  | error data =>
    simp [Frame.event, Frame.outcome, routerStep, popTransaction, hw]

/-- Frames against a backlog that starts with as many transactions as there
are frames: the heads are finished one by one, in order. -/
theorem routerRun_frames (k : Consts) (hk : k.framesDistinct) (ts : List ProducerTransaction) :
    ∀ (fs : List Frame) (w : Producer) (rest : List ProducerTransaction),
      fs.length = ts.length → w.transactions = ts ++ rest → (∀ t ∈ ts, t.Error = none) →
      (routerRun k w (fs.map Frame.event)).transactions = rest ∧
      (routerRun k w (fs.map Frame.event)).finished =
        w.finished ++ List.zipWith (fun t f => { t with Error := f.outcome }) ts fs := by
  induction ts with
  | nil =>
    intro fs w rest hl hw _
    have : fs = [] := List.length_eq_zero.mp (by simpa using hl)
    subst this
    simp [routerRun, hw]
  | cons t ts ih =>
    intro fs w rest hl hw hnil
    cases fs with
    | nil => simp at hl
    | cons f fs =>
      simp only [List.map_cons, routerRun_cons]
      obtain ⟨a1, a2⟩ := routerStep_frame_cons k hk w f t (ts ++ rest) (by simpa using hw)
        (hnil t (by simp))
      obtain ⟨b1, b2⟩ := ih fs (routerStep k w f.event) rest (by simpa using hl) a1
        (fun u hu => hnil u (by simp [hu]))
      refine ⟨b1, ?_⟩
      rw [b2, a2]
      simp

@[simp]
theorem close_transactions (k : Consts) (w : Producer) :
    (close k w).transactions = w.transactions := by
  unfold close; split <;> rfl

@[simp]
theorem close_finished (k : Consts) (w : Producer) :
    (close k w).finished = w.finished := by
  unfold close; split <;> rfl

@[simp]
theorem close_stopFlag (k : Consts) (w : Producer) :
    (close k w).stopFlag = w.stopFlag := by
  unfold close; split <;> rfl

@[simp]
theorem close_written (k : Consts) (w : Producer) :
    (close k w).written = w.written := by
  unfold close; split <;> rfl

@[simp]
theorem close_conn (k : Consts) (w : Producer) :
    (close k w).conn = w.conn := by
  unfold close; split <;> rfl

@[simp]
theorem close_sent (k : Consts) (w : Producer) :
    (close k w).sent = w.sent := by
  unfold close; split <;> rfl

@[simp]
theorem finish_conn (w : Producer) (t : ProducerTransaction) :
    (finish w t).conn = w.conn := by
  unfold finish; cases t.doneChan <;> rfl

theorem acceptedOf_cons (ev : RouterEvent) (evs : List RouterEvent) :
    acceptedOf (ev :: evs) = acceptedOf [ev] ++ acceptedOf evs := by
  cases ev <;> simp [acceptedOf]

theorem ptrs_append (xs ys : List ProducerTransaction) :
    ptrs (xs ++ ys) = ptrs xs ++ ptrs ys := by
  simp [ptrs]

/-- `popTransaction` moves the head of the backlog, if there is one, to the
finished calls and touches no other transaction. -/
theorem popTransaction_moves (k : Consts) (w : Producer) (frameType : Int) (data : Bytes) :
    ∃ fin, (popTransaction k w frameType data).finished = w.finished ++ fin ∧
      ptrs fin ++ ptrs (popTransaction k w frameType data).transactions =
        ptrs w.transactions := by
  unfold popTransaction
  cases h : w.transactions with
  | nil => exact ⟨[], by simp [log, ptrs, h]⟩
  | cons t rest =>
    refine ⟨[if frameType = k.FrameTypeError then
        { t with Error := some (GoError.ErrProtocol data) }
      else if frameType = k.FrameTypeContextCanceled then
        { t with Error := some GoError.Canceled }
      else if frameType = k.FrameTypeContextDeadlineExceeded then
        { t with Error := some GoError.DeadlineExceeded }
      else t], ?_, ?_⟩
    · simp
    · simp only [finish_transactions, ptrs, List.map_cons, List.map_nil, List.singleton_append,
        List.cons.injEq, and_true]
      split_ifs <;> rfl

/-- One Router iteration: what it finishes followed by what it leaves queued
is what was queued followed by what it accepted. -/
theorem routerStep_moves (k : Consts) (w : Producer) (ev : RouterEvent) :
    ∃ fin, (routerStep k w ev).finished = w.finished ++ fin ∧
      ptrs fin ++ ptrs (routerStep k w ev).transactions =
        ptrs w.transactions ++ ptrs (acceptedOf [ev]) := by
  cases ev with
  | transaction t writeErr =>
    cases writeErr with
    | none => exact ⟨[], by simp [routerStep, connWrite, acceptedOf, ptrs]⟩
    | some err =>
      have base : ∀ (frameType : Int) (data : Bytes),
          ∃ fin, (popTransaction k
              (log (connWrite { w with transactions := w.transactions ++ [t] } Task.router
                t.ctx t.cmd) LogLevel.LogLevelError
                (LogLine.sendingCommand w.conn err)) frameType data).finished =
              w.finished ++ fin ∧
            ptrs fin ++ ptrs (popTransaction k
              (log (connWrite { w with transactions := w.transactions ++ [t] } Task.router
                t.ctx t.cmd) LogLevel.LogLevelError
                (LogLine.sendingCommand w.conn err)) frameType data).transactions =
              ptrs w.transactions ++ ptrs (acceptedOf [RouterEvent.transaction t (some err)]) := by
        intro frameType data
        obtain ⟨fin, h1, h2⟩ := popTransaction_moves k
          (log (connWrite { w with transactions := w.transactions ++ [t] } Task.router
            t.ctx t.cmd) LogLevel.LogLevelError (LogLine.sendingCommand w.conn err))
          frameType data
        exact ⟨fin, by simpa [log, connWrite] using h1,
          by simpa [log, connWrite, acceptedOf, ptrs] using h2⟩
      cases err with
      | Canceled => exact base _ _
      | DeadlineExceeded => exact base _ _
      | ErrNotConnected => exact ⟨[], by simp [routerStep, connWrite, log, acceptedOf, ptrs]⟩
      | ErrStopped => exact ⟨[], by simp [routerStep, connWrite, log, acceptedOf, ptrs]⟩
      | ErrProtocol r => exact ⟨[], by simp [routerStep, connWrite, log, acceptedOf, ptrs]⟩
      | other c => exact ⟨[], by simp [routerStep, connWrite, log, acceptedOf, ptrs]⟩
  | response data =>
    obtain ⟨fin, h1, h2⟩ := popTransaction_moves k w k.FrameTypeResponse data
    exact ⟨fin, h1, by simpa [routerStep, acceptedOf, ptrs] using h2⟩
  | error data =>
    obtain ⟨fin, h1, h2⟩ := popTransaction_moves k w k.FrameTypeError data
    exact ⟨fin, h1, by simpa [routerStep, acceptedOf, ptrs] using h2⟩
  | closeChan => exact ⟨[], by simp [routerStep, acceptedOf, ptrs]⟩
  | exitChan => exact ⟨[], by simp [routerStep, acceptedOf, ptrs]⟩

/-- Any run of Router iterations: finished calls followed by the backlog is
the old backlog followed by the accepted transactions, as address sequences. -/
theorem routerRun_moves (k : Consts) (evs : List RouterEvent) :
    ∀ w : Producer, ∃ fin, (routerRun k w evs).finished = w.finished ++ fin ∧
      ptrs fin ++ ptrs (routerRun k w evs).transactions =
        ptrs w.transactions ++ ptrs (acceptedOf evs) := by
  induction evs with
  | nil => intro w; exact ⟨[], by simp [routerRun, acceptedOf, ptrs]⟩
  | cons ev evs ih =>
    intro w
    obtain ⟨f1, a1, a2⟩ := routerStep_moves k w ev
    obtain ⟨f2, b1, b2⟩ := ih (routerStep k w ev)
    refine ⟨f1 ++ f2, ?_, ?_⟩
    · rw [routerRun_cons, b1, a1, List.append_assoc]
    · rw [routerRun_cons, acceptedOf_cons, ptrs_append, ptrs_append, List.append_assoc, b2,
        ← List.append_assoc, a2, List.append_assoc]

theorem routerLoop_exit (k : Consts) (evs : List RouterEvent) :
    ∀ (w : Producer) (x : RouterEvent), (∀ e ∈ evs, e.isExit = false) → x.isExit = true →
      routerLoop k w (evs ++ [x]) = some (routerRun k w evs) := by
  induction evs with
  | nil => intro w x _ hx; simp [routerLoop, routerRun, hx]
  | cons ev evs ih =>
    intro w x hevs hx
    have h1 : ev.isExit = false := hevs ev (by simp)
    simp only [List.cons_append, routerLoop, h1, Bool.false_eq_true, if_false, routerRun_cons]
    exact ih _ x (fun e he => hevs e (by simp [he])) hx

@[simp]
theorem drainBacklog_transactions (ts : List ProducerTransaction) :
    ∀ w : Producer, (drainBacklog w ts).transactions = w.transactions := by
  induction ts with
  | nil => intro w; rfl
  | cons t ts ih => intro w; simp [drainBacklog, ih]

@[simp]
theorem drainBacklog_finished (ts : List ProducerTransaction) :
    ∀ w : Producer, (drainBacklog w ts).finished = w.finished ++ ts.map notConnected := by
  induction ts with
  | nil => intro w; simp [drainBacklog]
  | cons t ts ih => intro w; simp [drainBacklog, ih, notConnected]

/-- The drain loop returns exactly when it observes no waiting transaction
together with a zero counter; until then it finishes what it receives. -/
theorem spin_spec (polls : List Poll) :
    ∀ w : Producer,
      ((spin w polls).2 = true ↔ Poll.idle 0 ∈ polls) ∧
      (spin w polls).1.transactions = w.transactions ∧
      ((spin w polls).2 = true →
        (spin w polls).1.finished = w.finished ++ (received polls).map notConnected ∧
        (spin w polls).1.concurrentProducers = 0) := by
  induction polls with
  | nil => intro w; simp [spin]
  | cons p ps ih =>
    intro w
    cases p with
    | recv t =>
      obtain ⟨h1, h2, h3⟩ := ih (finish w { t with Error := some GoError.ErrNotConnected })
      refine ⟨by simpa [spin] using h1, by simpa [spin] using h2, ?_⟩
      intro h
      obtain ⟨h4, h5⟩ := h3 (by simpa [spin] using h)
      exact ⟨by simpa [spin, received, notConnected] using h4, by simpa [spin] using h5⟩
    | idle n =>
      by_cases hn : n = 0
      · subst hn; simp [spin, received]
      · obtain ⟨h1, h2, h3⟩ := ih { w with concurrentProducers := n }
        refine ⟨by simpa [spin, hn, Ne.symm hn] using h1, by simpa [spin, hn] using h2, ?_⟩
        intro h
        obtain ⟨h4, h5⟩ := h3 (by simpa [spin, hn] using h)
        exact ⟨by simpa [spin, received, hn] using h4, by simpa [spin, hn] using h5⟩

/-- C1 (FIFO completion): N transactions accepted by the Router with
successful writes into an empty backlog, followed by N response/error frames,
are finished in the order they were accepted: the k-th `finish` call is made
on the k-th transaction, whose `Error` is nil when the k-th frame is a
response and `ErrProtocol` with the payload of the k-th frame when it is an
error; afterwards the backlog is empty. -/
theorem fifo_completion (k : Consts) (hk : k.framesDistinct) (w : Producer)
    (ts : List ProducerTransaction) (fs : List Frame)
    (hw : w.transactions = []) (hlen : fs.length = ts.length)
    (hnil : ∀ t ∈ ts, t.Error = none) :
    (routerRun k w (ts.map accepted ++ fs.map Frame.event)).transactions = [] ∧
    (routerRun k w (ts.map accepted ++ fs.map Frame.event)).finished.length =
      w.finished.length + ts.length ∧
    (∀ (i : Nat) (hi : i < ts.length) (hf : i < fs.length),
      (∀ data, fs[i] = Frame.response data →
        (routerRun k w (ts.map accepted ++ fs.map Frame.event)).finished[w.finished.length + i]?
          = some ts[i] ∧ ts[i].Error = none) ∧
      (∀ data, fs[i] = Frame.error data →
        (routerRun k w (ts.map accepted ++ fs.map Frame.event)).finished[w.finished.length + i]?
          = some { ts[i] with Error := some (GoError.ErrProtocol data) })) := by
  rw [routerRun_append]
  obtain ⟨a1, a2⟩ := routerRun_accepted k ts w
  obtain ⟨b1, b2⟩ := routerRun_frames k hk ts fs (routerRun k w (ts.map accepted)) [] hlen
    (by simp [a1, hw]) hnil
  rw [a2] at b2
  refine ⟨b1, by simp [b2, hlen], ?_⟩
  intro i hi hf
  have key : (routerRun k (routerRun k w (ts.map accepted))
      (fs.map Frame.event)).finished[w.finished.length + i]? =
      some { ts[i] with Error := fs[i].outcome } := by
    rw [b2, List.getElem?_append_right (by omega)]
    simp [List.getElem?_zipWith, List.getElem?_eq_getElem hi, List.getElem?_eq_getElem hf]
  have hn : ts[i].Error = none := hnil _ (List.getElem_mem _)
  refine ⟨?_, ?_⟩
  · intro data h
    refine ⟨?_, hn⟩
    rw [key, h]
    have e : ({ ts[i] with Error := none } : ProducerTransaction) = ts[i] := by
      rw [← hn]
    simp [Frame.outcome]
    exact e
  · intro data h
    rw [key, h]
    rfl

/-- Two publishes answered by a response and by an error frame. -/
theorem fifo_completion_witness :
    (routerRun sampleConsts sampleConnected
        ([sampleTransaction 1, sampleTransaction 2].map accepted ++
          [Frame.response [79, 75], Frame.error [69]].map Frame.event)).transactions = [] ∧
    (routerRun sampleConsts sampleConnected
        ([sampleTransaction 1, sampleTransaction 2].map accepted ++
          [Frame.response [79, 75], Frame.error [69]].map Frame.event)).finished.length =
      sampleConnected.finished.length + 2 :=
  have h := fifo_completion sampleConsts (by decide) sampleConnected
    [sampleTransaction 1, sampleTransaction 2] [Frame.response [79, 75], Frame.error [69]]
    (by decide) (by decide) (by decide)
  ⟨h.1, h.2.1⟩

/-- C2 at a backlog that holds an earlier transaction: transaction 1 is queued
and unanswered, then transaction 2 is accepted and its write fails with
`context.Canceled`.  The Router finishes transaction 1 with `context.Canceled`
and keeps transaction 2 queued. -/
theorem cancel_completes_backlog_head :
    (routerStep sampleConsts
        (routerStep sampleConsts sampleConnected (accepted (sampleTransaction 1)))
        (RouterEvent.transaction (sampleTransaction 2) (some GoError.Canceled))).transactions =
      [sampleTransaction 2] ∧
    (routerStep sampleConsts
        (routerStep sampleConsts sampleConnected (accepted (sampleTransaction 1)))
        (RouterEvent.transaction (sampleTransaction 2) (some GoError.Canceled))).finished =
      [{ sampleTransaction 1 with Error := some GoError.Canceled }] := by
  decide

theorem drained_transactions (w : Producer) : (drained w).transactions = [] := rfl

theorem drained_finished (w : Producer) :
    (drained w).finished = w.finished ++ w.transactions.map notConnected := by
  show (drainBacklog w w.transactions).finished = _
  simp

theorem transactionCleanup_returns (w : Producer) (polls : List Poll)
    (hp : Poll.idle 0 ∈ polls) :
    ∃ w', transactionCleanup w polls = some w' ∧
      w'.finished = w.finished ++ (w.transactions ++ received polls).map notConnected ∧
      w'.transactions = [] ∧ w'.concurrentProducers = 0 := by
  obtain ⟨h1, h2, h3⟩ := spin_spec polls (drained w)
  have hr := h1.mpr hp
  obtain ⟨h4, h5⟩ := h3 hr
  refine ⟨(spin (drained w) polls).1, ?_, ?_, ?_, h5⟩
  · unfold transactionCleanup
    simp only [hr, if_true]
  · rw [h4, drained_finished]; simp
  · rw [h2, drained_transactions]

/-- C3 (exactly-once completion): the Router starts with an empty backlog,
handles any events that keep it in its loop, then leaves the loop and runs
`transactionCleanup`, whose drain loop eventually observes a zero counter.
At every point of the loop the addresses of the transactions finished so far,
followed by those in the backlog, are the addresses of the transactions
accepted so far, in order of acceptance.  The Router returns with an empty
backlog, having called `finish` on the accepted transactions and on those the
drain loop received, and on nothing else; when the addresses are pairwise
different, each accepted transaction is finished exactly once. -/
theorem exactly_once_completion (k : Consts) (w : Producer) (evs : List RouterEvent)
    (x : RouterEvent) (polls : List Poll)
    (hw : w.transactions = []) (hevs : ∀ e ∈ evs, e.isExit = false) (hx : x.isExit = true)
    (hp : Poll.idle 0 ∈ polls) :
    (∀ n : Nat,
      ptrs ((routerRun k w (evs.take n)).finished.drop w.finished.length) ++
          ptrs (routerRun k w (evs.take n)).transactions =
        ptrs (acceptedOf (evs.take n))) ∧
    ∃ w', router k w (evs ++ [x]) polls = some w' ∧
      w'.transactions = [] ∧
      ptrs (w'.finished.drop w.finished.length) =
        ptrs (acceptedOf evs) ++ ptrs (received polls) ∧
      ((ptrs (acceptedOf evs ++ received polls)).Nodup →
        ∀ t ∈ acceptedOf evs, (ptrs (w'.finished.drop w.finished.length)).count t.ptr = 1) := by
  refine ⟨?_, ?_⟩
  · intro n
    obtain ⟨fin, h1, h2⟩ := routerRun_moves k (evs.take n) w
    rw [h1, List.drop_left, h2, hw]
    simp [ptrs]
  · obtain ⟨fin, h1, h2⟩ := routerRun_moves k evs w
    obtain ⟨w1, c1, c2, c3, _⟩ := transactionCleanup_returns (routerRun k w evs) polls hp
    have hfin : ptrs (({ w1 with wg := w1.wg - 1 } : Producer).finished.drop w.finished.length) =
        ptrs (acceptedOf evs) ++ ptrs (received polls) := by
      show ptrs (w1.finished.drop w.finished.length) = _
      rw [c2, h1, List.append_assoc, List.drop_left]
      have e : ∀ l : List ProducerTransaction, ptrs (l.map notConnected) = ptrs l := by
        intro l; simp [ptrs, notConnected, Function.comp_def]
      rw [ptrs_append, e, ptrs_append, ← List.append_assoc, h2, hw]
      simp [ptrs]
    refine ⟨log { w1 with wg := w1.wg - 1 } LogLevel.LogLevelInfo
      (LogLine.exitingRouter w1.conn), ?_, ?_, ?_, ?_⟩
    · simp [router, routerLoop_exit k evs w x hevs hx, routerExit, c1]
    · simpa [log] using c3
    · simpa [log] using hfin
    · intro hnd t ht
      have hfin2 : ptrs ((log { w1 with wg := w1.wg - 1 } LogLevel.LogLevelInfo
          (LogLine.exitingRouter w1.conn)).finished.drop w.finished.length) =
          ptrs (acceptedOf evs ++ received polls) := by
        rw [ptrs_append]; simpa [log] using hfin
      rw [hfin2]
      apply List.count_eq_one_of_mem hnd
      simp only [ptrs, List.mem_map]
      exact ⟨t, by simp [ht], rfl⟩

/-- A publish accepted and answered, a second one accepted and still queued
when the connection reports its close; the drain loop sees one submitter
leave before the counter is zero. -/
theorem exactly_once_completion_witness :
    ∃ w', router sampleConsts sampleConnected
        ([accepted (sampleTransaction 1), RouterEvent.response [79, 75],
          RouterEvent.transaction (sampleTransaction 2) (some (GoError.other 1))] ++
          [RouterEvent.closeChan])
        [Poll.idle 1, Poll.recv (sampleTransaction 3), Poll.idle 0] = some w' ∧
      w'.transactions = [] ∧
      ptrs (w'.finished.drop sampleConnected.finished.length) = [1, 2] ++ [3] :=
  have h := (exactly_once_completion sampleConsts sampleConnected
    [accepted (sampleTransaction 1), RouterEvent.response [79, 75],
      RouterEvent.transaction (sampleTransaction 2) (some (GoError.other 1))]
    RouterEvent.closeChan [Poll.idle 1, Poll.recv (sampleTransaction 3), Poll.idle 0]
    (by decide) (by decide) (by decide) (by decide)).2
  h.imp fun _ hw' => ⟨hw'.1, hw'.2.1, hw'.2.2.1⟩

/-- C4 (drain postcondition): with no submitter in flight,
`transactionCleanup` returns after calling `finish` once on each transaction
of the backlog, in backlog order, each with `Error = ErrNotConnected`, and
leaves the backlog empty.  In general it returns exactly when its drain loop
observes no waiting transaction together with a zero counter, and then it has
also finished, once each and with `ErrNotConnected`, the transactions the
loop received before that. -/
theorem drain_postcondition (w : Producer) (polls : List Poll) :
    (∃ w', transactionCleanup w (Poll.idle 0 :: polls) = some w' ∧
      w'.finished = w.finished ++ w.transactions.map notConnected ∧
      w'.transactions = []) ∧
    (Poll.idle 0 ∈ polls →
      ∃ w', transactionCleanup w polls = some w' ∧
        w'.finished = w.finished ++ (w.transactions ++ received polls).map notConnected ∧
        (∀ t ∈ w'.finished.drop w.finished.length, t.Error = some GoError.ErrNotConnected) ∧
        w'.transactions = [] ∧ w'.concurrentProducers = 0) ∧
    (Poll.idle 0 ∉ polls → transactionCleanup w polls = none) := by
  refine ⟨?_, ?_, ?_⟩
  · obtain ⟨w', h1, h2, h3, _⟩ :=
      transactionCleanup_returns w (Poll.idle 0 :: polls) (by simp)
    exact ⟨w', h1, by simpa [received] using h2, h3⟩
  · intro hp
    obtain ⟨w', h1, h2, h3, h4⟩ := transactionCleanup_returns w polls hp
    refine ⟨w', h1, h2, ?_, h3, h4⟩
    intro t ht
    rw [h2, List.drop_left] at ht
    obtain ⟨u, _, rfl⟩ := List.mem_map.mp ht
    rfl
  · intro hp
    obtain ⟨h1, _, _⟩ := spin_spec polls (drained w)
    have : (spin (drained w) polls).2 = false := by
      cases h : (spin (drained w) polls).2
      · rfl
      · exact absurd (h1.mp h) hp
    unfold transactionCleanup
    simp only [this, Bool.false_eq_true, if_false]

/-- C5 (connect decision table): `connect` returns `ErrStopped` when the stop
flag is set, whatever the state; otherwise nil when the state is
`StateConnected`; otherwise `ErrNotConnected` when the state is not
`StateInit`; in these three cases the producer is unchanged.  From `StateInit`
with the flag clear, a failed handshake returns the handshake error, closes
the connection just created, launches no Router and leaves the state
`StateInit`; a successful handshake returns nil, stores `StateConnected` and
launches exactly one Router. -/
theorem connect_decision_table (k : Consts) (hk : k.StateInit ≠ k.StateConnected)
    (w : Producer) (ctx : Context) (handshake : Option GoError) :
    (w.stopFlag = 1 → connect k w ctx handshake = (some GoError.ErrStopped, w)) ∧
    (w.stopFlag ≠ 1 → w.state = k.StateConnected → connect k w ctx handshake = (none, w)) ∧
    (w.stopFlag ≠ 1 → w.state ≠ k.StateConnected → w.state ≠ k.StateInit →
      connect k w ctx handshake = (some GoError.ErrNotConnected, w)) ∧
    (w.stopFlag ≠ 1 → w.state = k.StateInit → ∀ err, handshake = some err →
      (connect k w ctx handshake).1 = some err ∧
      (connect k w ctx handshake).2.state = k.StateInit ∧
      (connect k w ctx handshake).2.conn = w.connsCreated + 1 ∧
      (connect k w ctx handshake).2.closed = w.closed ++ [w.connsCreated + 1] ∧
      (connect k w ctx handshake).2.routersLaunched = w.routersLaunched ∧
      (connect k w ctx handshake).2.wg = w.wg) ∧
    (w.stopFlag ≠ 1 → w.state = k.StateInit → handshake = none →
      (connect k w ctx handshake).1 = none ∧
      (connect k w ctx handshake).2.state = k.StateConnected ∧
      (connect k w ctx handshake).2.conn = w.connsCreated + 1 ∧
      (connect k w ctx handshake).2.closed = w.closed ∧
      (connect k w ctx handshake).2.routersLaunched = w.routersLaunched + 1 ∧
      (connect k w ctx handshake).2.wg = w.wg + 1) := by
  refine ⟨?_, ?_, ?_, ?_, ?_⟩
  · intro h; simp [connect, h]
  · intro h hs; simp [connect, h, hs]
  · intro h hs hi; simp [connect, h, hs, hi]
  · intro h hs err he
    subst he
    simp [connect, h, hs, hk, log, connClose]
  · intro h hs he
    subst he
    simp [connect, h, hs, hk, log]

/-- A first connect of a new producer whose handshake succeeds. -/
theorem connect_decision_table_witness :
    (connect sampleConsts NewProducer Context.Background none).1 = none ∧
    (connect sampleConsts NewProducer Context.Background none).2.state =
      sampleConsts.StateConnected ∧
    (connect sampleConsts NewProducer Context.Background none).2.routersLaunched = 1 :=
  have h := (connect_decision_table sampleConsts (by decide) NewProducer Context.Background
    none).2.2.2.2 (by decide) (by decide) rfl
  ⟨h.1, h.2.1, h.2.2.2.2.1⟩

/-! ## The stop flag -/

theorem popTransaction_stopFlag (k : Consts) (w : Producer) (frameType : Int) (data : Bytes) :
    (popTransaction k w frameType data).stopFlag = w.stopFlag := by
  unfold popTransaction
  cases w.transactions <;> simp [log]

theorem routerStep_stopFlag (k : Consts) (w : Producer) (ev : RouterEvent) :
    (routerStep k w ev).stopFlag = w.stopFlag := by
  cases ev with
  | transaction t writeErr =>
    cases writeErr with
    | none => simp [routerStep, connWrite]
    | some err =>
      cases err <;> simp [routerStep, connWrite, log, popTransaction_stopFlag]
  | response data => simp [routerStep, popTransaction_stopFlag]
  | error data => simp [routerStep, popTransaction_stopFlag]
  | closeChan => rfl
  | exitChan => rfl

theorem drainBacklog_stopFlag (ts : List ProducerTransaction) :
    ∀ w : Producer, (drainBacklog w ts).stopFlag = w.stopFlag := by
  induction ts with
  | nil => intro w; rfl
  | cons t ts ih => intro w; simp [drainBacklog, ih]

theorem spin_stopFlag (polls : List Poll) :
    ∀ w : Producer, (spin w polls).1.stopFlag = w.stopFlag := by
  induction polls with
  | nil => intro w; rfl
  | cons p ps ih =>
    intro w
    cases p with
    | recv t => simp [spin, ih]
    | idle n =>
      by_cases hn : n = 0
      · simp [spin, hn]
      · simp [spin, hn, ih]

theorem cleanupProgress_stopFlag (w : Producer) (polls : List Poll) :
    (cleanupProgress w polls).stopFlag = w.stopFlag := by
  unfold cleanupProgress
  rw [spin_stopFlag]
  exact drainBacklog_stopFlag _ _

theorem routerExit_stopFlag (w : Producer) (polls : List Poll) :
    ((routerExit w polls).getD (cleanupProgress w polls)).stopFlag = w.stopFlag := by
  unfold routerExit transactionCleanup
  by_cases h : (spin (drained w) polls).2 = true
  · simp only [h, if_true, Option.getD_some, log]
    exact cleanupProgress_stopFlag w polls
  · simp only [h, if_false, Option.getD_none]
    exact cleanupProgress_stopFlag w polls

theorem connect_stopFlag (k : Consts) (w : Producer) (ctx : Context)
    (handshake : Option GoError) : (connect k w ctx handshake).2.stopFlag = w.stopFlag := by
  unfold connect
  split_ifs
  · rfl
  · rfl
  · rfl
  · cases handshake <;> simp [log, connClose]

theorem sendCommandAsync_stopFlag (k : Consts) (w : Producer) (ptr : Nat) (ctx : Context)
    (cmd : Command) (doneChan : Option Nat) (args : List Nat) (handshake : Option GoError)
    (sel : Handoff) :
    (sendCommandAsync k w ptr ctx cmd doneChan args handshake sel).2.2.stopFlag = w.stopFlag := by
  have hc := connect_stopFlag k
    { w with concurrentProducers := wrapInt32 (w.concurrentProducers + 1) } ctx handshake
  unfold sendCommandAsync
  simp only
  split_ifs with hs
  · cases h1 : (connect k { w with concurrentProducers := wrapInt32 (w.concurrentProducers + 1) }
        ctx handshake).1 with
    | some err => simpa using hc
    | none => cases sel <;> simpa using hc
  · cases sel <;> rfl

theorem PingWithContext_stopFlag (k : Consts) (w : Producer) (ctx : Context)
    (handshake : Option GoError) (writeErr : Option GoError) :
    (PingWithContext k w ctx handshake writeErr).2.stopFlag = w.stopFlag := by
  have hc := connect_stopFlag k w ctx handshake
  unfold PingWithContext
  simp only
  split_ifs with hs
  · cases h1 : (connect k w ctx handshake).1 with
    | some err => simpa using hc
    | none => simpa [connWrite] using hc
  · rfl

theorem Stop_of_stopped (k : Consts) (w : Producer) (h : w.stopFlag = 1) : Stop k w = w := by
  simp [Stop, h]

theorem apply_stopFlag (k : Consts) (w : Producer) (op : Op) (h : w.stopFlag = 1) :
    (op.apply k w).stopFlag = 1 := by
  cases op with
  | Stop => simp only [Op.apply]; rw [Stop_of_stopped k w h]; exact h
  | connect ctx handshake => simp only [Op.apply]; rw [connect_stopFlag]; exact h
  | close => simp only [Op.apply]; rw [close_stopFlag]; exact h
  | sendCommandAsync ptr ctx cmd doneChan args handshake sel =>
    simp only [Op.apply]; rw [sendCommandAsync_stopFlag]; exact h
  | PingWithContext ctx handshake writeErr =>
    simp only [Op.apply]; rw [PingWithContext_stopFlag]; exact h
  | routerStep ev => simp only [Op.apply]; rw [routerStep_stopFlag]; exact h
  | popTransaction frameType data =>
    simp only [Op.apply]; rw [popTransaction_stopFlag]; exact h
  | transactionCleanup polls => simp only [Op.apply]; rw [cleanupProgress_stopFlag]; exact h
  | routerExit polls => simp only [Op.apply]; rw [routerExit_stopFlag]; exact h
  | resetState =>
    simp only [Op.apply, resetState]
    split_ifs <;> exact h
  | onConnIOError => simp only [Op.apply, onConnIOError]; rw [close_stopFlag]; exact h
  | onConnClose => exact h

theorem runOps_stopFlag (k : Consts) (ops : List Op) :
    ∀ w : Producer, w.stopFlag = 1 → (runOps k w ops).stopFlag = 1 := by
  induction ops with
  | nil => intro w h; exact h
  | cons op ops ih => intro w h; exact ih _ (apply_stopFlag k w op h)

/-- C6 (Stop is idempotent and permanent): on a producer whose stop flag is 1,
`Stop` changes no field (no log line, no close of `exitChan`, no `close`, no
drain) and the flag is still 1; and after any sequence of operations of the
producer (Stop, connect, close, submit, ping, Router iterations, drain, the
delegate callbacks) the flag is still 1. -/
theorem stop_idempotent_permanent (k : Consts) (w : Producer) (ops : List Op)
    (h : w.stopFlag = 1) :
    Stop k w = w ∧ (Stop k w).stopFlag = 1 ∧ (runOps k w ops).stopFlag = 1 := by
  refine ⟨Stop_of_stopped k w h, ?_, runOps_stopFlag k ops w h⟩
  rw [Stop_of_stopped k w h]; exact h

/-- A connected producer is stopped, then stopped again, pinged and asked to
connect. -/
theorem stop_idempotent_permanent_witness :
    (Stop sampleConsts sampleConnected).stopFlag = 1 ∧
    Stop sampleConsts (Stop sampleConsts sampleConnected) = Stop sampleConsts sampleConnected ∧
    (runOps sampleConsts (Stop sampleConsts sampleConnected)
      [Op.Stop, Op.PingWithContext Context.Background none none,
        Op.connect Context.Background none]).stopFlag = 1 :=
  have h := stop_idempotent_permanent sampleConsts (Stop sampleConsts sampleConnected)
    [Op.Stop, Op.PingWithContext Context.Background none none,
      Op.connect Context.Background none] (by decide)
  ⟨by decide, h.1, h.2.2⟩

/-- C7 (desynchronization handling): for every frame type and payload,
`popTransaction` on an empty backlog calls `finish` on nothing, delivers
nothing, leaves the backlog empty, logs the frame type, the length of the
whole payload and the first min(len, 32) bytes of it, and then calls `close`:
a producer in `StateConnected` goes to `StateDisconnected` and its connection
is closed. -/
theorem popTransaction_empty_backlog (k : Consts) (w : Producer) (frameType : Int)
    (data : Bytes) (hw : w.transactions = []) :
    (popTransaction k w frameType data).finished = w.finished ∧
    (popTransaction k w frameType data).sent = w.sent ∧
    (popTransaction k w frameType data).transactions = [] ∧
    popTransaction k w frameType data =
      close k (log w LogLevel.LogLevelError
        (LogLine.unexpectedResponse w.conn frameType data.length
          (data.take (min data.length 32)))) ∧
    (popTransaction k w frameType data).logged =
      w.logged ++ [(LogLevel.LogLevelError,
        LogLine.unexpectedResponse w.conn frameType data.length
          (data.take (min data.length 32)))] ∧
    (w.state = k.StateConnected →
      (popTransaction k w frameType data).state = k.StateDisconnected ∧
      (popTransaction k w frameType data).closed = w.closed ++ [w.conn]) := by
  have hd : (if data.length > 32 then data.take 32 else data) =
      data.take (min data.length 32) := by
    split_ifs with h
    · rw [Nat.min_eq_right (by omega)]
    · rw [Nat.min_eq_left (by omega), List.take_length]
  have hp : popTransaction k w frameType data =
      close k (log w LogLevel.LogLevelError
        (LogLine.unexpectedResponse w.conn frameType data.length
          (data.take (min data.length 32)))) := by
    unfold popTransaction
    rw [hw]
    simp only [hd]
  refine ⟨?_, ?_, ?_, hp, ?_, ?_⟩
  · rw [hp]; simp [log]
  · rw [hp]; simp [log]
  · rw [hp]; simp [log, hw]
  · rw [hp]; unfold close; split_ifs <;> simp [log, connClose]
  · intro hs
    rw [hp]
    simp [close, log, connClose, hs]

/-- A response of 40 bytes arrives at a connected producer with nothing
queued: the log line carries length 40 and the first 32 bytes. -/
theorem popTransaction_empty_backlog_witness :
    (popTransaction sampleConsts sampleConnected sampleConsts.FrameTypeResponse
        (List.range 40)).logged =
      sampleConnected.logged ++ [(LogLevel.LogLevelError,
        LogLine.unexpectedResponse sampleConnected.conn sampleConsts.FrameTypeResponse
          (List.range 40).length ((List.range 40).take (min (List.range 40).length 32)))] ∧
    (List.range 40).length = 40 ∧
    (List.range 40).take (min (List.range 40).length 32) = List.range 32 ∧
    (popTransaction sampleConsts sampleConnected sampleConsts.FrameTypeResponse
        (List.range 40)).state = sampleConsts.StateDisconnected :=
  have h := popTransaction_empty_backlog sampleConsts sampleConnected
    sampleConsts.FrameTypeResponse (List.range 40) (by decide)
  ⟨h.2.2.2.2.1, by decide, by decide, (h.2.2.2.2.2 (by decide)).1⟩

/-- C8 as stated fails: an error frame that reaches a connected producer with
an empty backlog makes `popTransaction` call `close`; the state leaves
`StateConnected` and connection 1 is closed. -/
theorem error_frame_on_empty_backlog_closes :
    sampleConnected.state = sampleConsts.StateConnected ∧
    sampleConnected.transactions = [] ∧
    (routerStep sampleConsts sampleConnected (RouterEvent.error [69])).state =
      sampleConsts.StateDisconnected ∧
    (routerStep sampleConsts sampleConnected (RouterEvent.error [69])).closed = [1] ∧
    (routerStep sampleConsts sampleConnected (RouterEvent.error [69])).state ≠
      sampleConsts.StateConnected := by
  decide

theorem popTransaction_cons_link (k : Consts) (w : Producer) (frameType : Int) (data : Bytes)
    (hw : w.transactions ≠ []) :
    (popTransaction k w frameType data).state = w.state ∧
    (popTransaction k w frameType data).closed = w.closed ∧
    (popTransaction k w frameType data).resetsLaunched = w.resetsLaunched := by
  unfold popTransaction
  cases h : w.transactions with
  | nil => exact absurd h hw
  | cons t rest => simp

/-- C8, amended (transaction-scoped failures do not close the connection):
with the connection in `StateConnected`, a Router iteration whose write fails
with `context.Canceled` or `context.DeadlineExceeded`, and a Router iteration
for an error frame that finds a transaction in the backlog, leave the state
`StateConnected`, call `Close()` on no connection and start no reset
goroutine. -/
theorem transaction_scoped_failures_keep_connection (k : Consts) (w : Producer)
    (t : ProducerTransaction) (data : Bytes) (hs : w.state = k.StateConnected) :
    ((routerStep k w (RouterEvent.transaction t (some GoError.Canceled))).state =
        k.StateConnected ∧
      (routerStep k w (RouterEvent.transaction t (some GoError.Canceled))).closed = w.closed ∧
      (routerStep k w (RouterEvent.transaction t (some GoError.Canceled))).resetsLaunched =
        w.resetsLaunched) ∧
    ((routerStep k w (RouterEvent.transaction t (some GoError.DeadlineExceeded))).state =
        k.StateConnected ∧
      (routerStep k w (RouterEvent.transaction t (some GoError.DeadlineExceeded))).closed =
        w.closed ∧
      (routerStep k w
        (RouterEvent.transaction t (some GoError.DeadlineExceeded))).resetsLaunched =
        w.resetsLaunched) ∧
    (w.transactions ≠ [] →
      (routerStep k w (RouterEvent.error data)).state = k.StateConnected ∧
      (routerStep k w (RouterEvent.error data)).closed = w.closed ∧
      (routerStep k w (RouterEvent.error data)).resetsLaunched = w.resetsLaunched) := by
  have base : ∀ (err : GoError) (frameType : Int) (d : Bytes),
      (popTransaction k
        (log (connWrite { w with transactions := w.transactions ++ [t] } Task.router
          t.ctx t.cmd) LogLevel.LogLevelError (LogLine.sendingCommand w.conn err))
        frameType d).state = k.StateConnected ∧
      (popTransaction k
        (log (connWrite { w with transactions := w.transactions ++ [t] } Task.router
          t.ctx t.cmd) LogLevel.LogLevelError (LogLine.sendingCommand w.conn err))
        frameType d).closed = w.closed ∧
      (popTransaction k
        (log (connWrite { w with transactions := w.transactions ++ [t] } Task.router
          t.ctx t.cmd) LogLevel.LogLevelError (LogLine.sendingCommand w.conn err))
        frameType d).resetsLaunched = w.resetsLaunched := by
    intro err frameType d
    obtain ⟨h1, h2, h3⟩ := popTransaction_cons_link k
      (log (connWrite { w with transactions := w.transactions ++ [t] } Task.router
        t.ctx t.cmd) LogLevel.LogLevelError (LogLine.sendingCommand w.conn err))
      frameType d (by simp [log, connWrite])
    exact ⟨h1.trans hs, h2, h3⟩
  refine ⟨base _ _ _, base _ _ _, ?_⟩
  intro hw
  obtain ⟨h1, h2, h3⟩ := popTransaction_cons_link k w k.FrameTypeError data hw
  exact ⟨h1.trans hs, h2, h3⟩

/-- A cancelled write and an error frame at a connected producer that has one
transaction queued. -/
theorem transaction_scoped_failures_keep_connection_witness :
    (routerStep sampleConsts
        (routerStep sampleConsts sampleConnected (accepted (sampleTransaction 1)))
        (RouterEvent.transaction (sampleTransaction 2) (some GoError.Canceled))).state =
      sampleConsts.StateConnected ∧
    (routerStep sampleConsts
        (routerStep sampleConsts sampleConnected (accepted (sampleTransaction 1)))
        (RouterEvent.error [69])).state = sampleConsts.StateConnected :=
  have h := transaction_scoped_failures_keep_connection sampleConsts
    (routerStep sampleConsts sampleConnected (accepted (sampleTransaction 1)))
    (sampleTransaction 2) [69] (by decide)
  ⟨h.1.1, (h.2.2 (by decide)).1⟩

/-! ## The connection is closed at most once per connect -/

theorem closeOnce_refl (k : Consts) (w : Producer) : closeOnce k w w :=
  ⟨rfl, Or.inl ⟨rfl, fun h => h⟩⟩

theorem closeOnce_trans (k : Consts) (a b c : Producer) (h1 : closeOnce k a b)
    (h2 : closeOnce k b c) : closeOnce k a c := by
  obtain ⟨c1, d1⟩ := h1
  obtain ⟨c2, d2⟩ := h2
  refine ⟨c2.trans c1, ?_⟩
  rcases d1 with ⟨e1, s1⟩ | ⟨s1, n1, e1⟩
  · rcases d2 with ⟨e2, s2⟩ | ⟨s2, n2, e2⟩
    · exact Or.inl ⟨e2.trans e1, fun h => s2 (s1 h)⟩
    · refine Or.inr ⟨?_, n2, ?_⟩
      · by_contra hne
        exact s1 hne s2
      · rw [e2, e1, c1]
  · rcases d2 with ⟨e2, s2⟩ | ⟨s2, _, _⟩
    · exact Or.inr ⟨s1, s2 n1, e2.trans e1⟩
    · exact absurd s2 n1

theorem closeOnce_of_same (k : Consts) (w w' : Producer) (h1 : w'.conn = w.conn)
    (h2 : w'.closed = w.closed) (h3 : w'.state = w.state) : closeOnce k w w' :=
  ⟨h1, Or.inl ⟨h2, fun h => by rw [h3]; exact h⟩⟩

theorem closeOnce_close (k : Consts) (hk : k.statesDistinct) (w : Producer) :
    closeOnce k w (close k w) := by
  by_cases h : w.state = k.StateConnected
  · refine ⟨by simp, Or.inr ⟨h, ?_, ?_⟩⟩
    · simp [close, h, connClose, hk.2.1]
    · simp [close, h, connClose]
  · have : close k w = w := by simp [close, h]
    rw [this]; exact closeOnce_refl k w

theorem closeOnce_popTransaction (k : Consts) (hk : k.statesDistinct) (w : Producer)
    (frameType : Int) (data : Bytes) : closeOnce k w (popTransaction k w frameType data) := by
  unfold popTransaction
  cases w.transactions with
  | nil =>
    exact closeOnce_trans k _ _ _ (closeOnce_of_same k w (log w _ _) rfl rfl rfl)
      (closeOnce_close k hk _)
  | cons t rest => exact closeOnce_of_same k _ _ (by simp) (by simp) (by simp)

theorem closeOnce_routerStep (k : Consts) (hk : k.statesDistinct) (w : Producer)
    (ev : RouterEvent) : closeOnce k w (routerStep k w ev) := by
  cases ev with
  | transaction t writeErr =>
    cases writeErr with
    | none => exact closeOnce_of_same k _ _ rfl rfl rfl
    | some err =>
      have base : closeOnce k w
          (log (connWrite { w with transactions := w.transactions ++ [t] } Task.router
            t.ctx t.cmd) LogLevel.LogLevelError (LogLine.sendingCommand w.conn err)) :=
        closeOnce_of_same k _ _ rfl rfl rfl
      cases err with
      | Canceled => exact closeOnce_trans k _ _ _ base (closeOnce_popTransaction k hk _ _ _)
      | DeadlineExceeded =>
        exact closeOnce_trans k _ _ _ base (closeOnce_popTransaction k hk _ _ _)
      | ErrNotConnected => exact closeOnce_trans k _ _ _ base (closeOnce_close k hk _)
      | ErrStopped => exact closeOnce_trans k _ _ _ base (closeOnce_close k hk _)
      | ErrProtocol r => exact closeOnce_trans k _ _ _ base (closeOnce_close k hk _)
      | other c => exact closeOnce_trans k _ _ _ base (closeOnce_close k hk _)
  | response data => exact closeOnce_popTransaction k hk _ _ _
  | error data => exact closeOnce_popTransaction k hk _ _ _
  | closeChan => exact closeOnce_refl k w
  | exitChan => exact closeOnce_refl k w

theorem drainBacklog_link (ts : List ProducerTransaction) :
    ∀ w : Producer, (drainBacklog w ts).conn = w.conn ∧
      (drainBacklog w ts).closed = w.closed ∧ (drainBacklog w ts).state = w.state := by
  induction ts with
  | nil => intro w; exact ⟨rfl, rfl, rfl⟩
  | cons t ts ih =>
    intro w
    obtain ⟨h1, h2, h3⟩ := ih (finish w { t with Error := some GoError.ErrNotConnected })
    exact ⟨by simpa [drainBacklog] using h1, by simpa [drainBacklog] using h2,
      by simpa [drainBacklog] using h3⟩

theorem spin_link (polls : List Poll) :
    ∀ w : Producer, (spin w polls).1.conn = w.conn ∧ (spin w polls).1.closed = w.closed ∧
      (spin w polls).1.state = w.state := by
  induction polls with
  | nil => intro w; exact ⟨rfl, rfl, rfl⟩
  | cons p ps ih =>
    intro w
    cases p with
    | recv t =>
      obtain ⟨h1, h2, h3⟩ := ih (finish w { t with Error := some GoError.ErrNotConnected })
      exact ⟨by simpa [spin] using h1, by simpa [spin] using h2, by simpa [spin] using h3⟩
    | idle n =>
      by_cases hn : n = 0
      · simp [spin, hn]
      · obtain ⟨h1, h2, h3⟩ := ih { w with concurrentProducers := n }
        exact ⟨by simpa [spin, hn] using h1, by simpa [spin, hn] using h2,
          by simpa [spin, hn] using h3⟩

theorem cleanupProgress_link (w : Producer) (polls : List Poll) :
    (cleanupProgress w polls).conn = w.conn ∧ (cleanupProgress w polls).closed = w.closed ∧
      (cleanupProgress w polls).state = w.state := by
  obtain ⟨h1, h2, h3⟩ := spin_link polls (drained w)
  obtain ⟨g1, g2, g3⟩ := drainBacklog_link w.transactions w
  exact ⟨h1.trans g1, h2.trans g2, h3.trans g3⟩

theorem closeOnce_routerExit (k : Consts) (w : Producer) (polls : List Poll) :
    closeOnce k w ((routerExit w polls).getD (cleanupProgress w polls)) := by
  obtain ⟨h1, h2, h3⟩ := cleanupProgress_link w polls
  unfold routerExit transactionCleanup
  by_cases h : (spin (drained w) polls).2 = true
  · simp only [h, if_true, Option.getD_some, log]
    exact closeOnce_of_same k _ _ h1 h2 h3
  · simp only [h, if_false, Option.getD_none]
    exact closeOnce_of_same k _ _ h1 h2 h3

theorem closeOnce_apply (k : Consts) (hk : k.statesDistinct) (w : Producer) (op : Op)
    (hop : op.connects = false) : closeOnce k w (op.apply k w) := by
  cases op with
  | Stop =>
    simp only [Op.apply, Stop]
    split_ifs
    · exact closeOnce_trans k _ _ _ (closeOnce_of_same k w _ rfl rfl rfl)
        (closeOnce_close k hk _)
    · exact closeOnce_refl k w
  | connect ctx handshake => simp [Op.connects] at hop
  | close => exact closeOnce_close k hk w
  | sendCommandAsync ptr ctx cmd doneChan args handshake sel => simp [Op.connects] at hop
  | PingWithContext ctx handshake writeErr => simp [Op.connects] at hop
  | routerStep ev => exact closeOnce_routerStep k hk w ev
  | popTransaction frameType data => exact closeOnce_popTransaction k hk w frameType data
  | transactionCleanup polls =>
    obtain ⟨h1, h2, h3⟩ := cleanupProgress_link w polls
    exact closeOnce_of_same k _ _ h1 h2 h3
  | routerExit polls => exact closeOnce_routerExit k w polls
  | resetState =>
    simp only [Op.apply, resetState]
    split_ifs
    · exact ⟨rfl, Or.inl ⟨rfl, fun _ => hk.1⟩⟩
    · exact closeOnce_refl k w
  | onConnIOError => exact closeOnce_close k hk w
  | onConnClose => exact closeOnce_of_same k _ _ rfl rfl rfl

theorem closeOnce_runOps (k : Consts) (hk : k.statesDistinct) (ops : List Op) :
    ∀ w : Producer, (∀ op ∈ ops, op.connects = false) → closeOnce k w (runOps k w ops) := by
  induction ops with
  | nil => intro w _; exact closeOnce_refl k w
  | cons op ops ih =>
    intro w h
    exact closeOnce_trans k _ _ _ (closeOnce_apply k hk w op (h op (by simp)))
      (ih _ (fun o ho => h o (by simp [ho])))

/-- C9 (close is guarded by the Connected state): `close` closes the external
connection and stores `StateDisconnected` exactly when the state was
`StateConnected`, and then it also starts the goroutine that resets the
state; in every other state it changes nothing.  Two consecutive calls have
the effect of one, and over any sequence of operations that make no connect
attempt the connection is closed not at all or once. -/
theorem close_guarded (k : Consts) (hk : k.statesDistinct) (w : Producer) (ops : List Op)
    (hops : ∀ op ∈ ops, op.connects = false) :
    (w.state = k.StateConnected →
      close k w = { w with state := k.StateDisconnected, closed := w.closed ++ [w.conn],
                           resetsLaunched := w.resetsLaunched + 1 }) ∧
    (w.state ≠ k.StateConnected → close k w = w) ∧
    (((close k w).closed = w.closed ++ [w.conn] ∧ (close k w).state = k.StateDisconnected) ↔
      w.state = k.StateConnected) ∧
    close k (close k w) = close k w ∧
    ((runOps k w ops).closed = w.closed ∨ (runOps k w ops).closed = w.closed ++ [w.conn]) := by
  refine ⟨?_, ?_, ?_, ?_, ?_⟩
  · intro h; simp [close, h, connClose]
  · intro h; simp [close, h]
  · by_cases h : w.state = k.StateConnected
    · simp [close, h, connClose]
    · simp [close, h]
  · by_cases h : w.state = k.StateConnected
    · simp [close, h, connClose, hk.2.1]
    · simp [close, h]
  · obtain ⟨_, h | h⟩ := closeOnce_runOps k hk ops w hops
    · exact Or.inl h.1
    · exact Or.inr h.2.2

/-- A connected producer whose Router meets a failed write, an unexpected
frame, a `Stop` and a second `close`: connection 1 is closed once. -/
theorem close_guarded_witness :
    close sampleConsts (close sampleConsts sampleConnected) =
      close sampleConsts sampleConnected ∧
    ((runOps sampleConsts sampleConnected
        [Op.routerStep (RouterEvent.transaction (sampleTransaction 1) (some (GoError.other 1))),
          Op.routerStep (RouterEvent.response [79, 75]), Op.onConnIOError, Op.Stop,
          Op.close]).closed = sampleConnected.closed ∨
      (runOps sampleConsts sampleConnected
        [Op.routerStep (RouterEvent.transaction (sampleTransaction 1) (some (GoError.other 1))),
          Op.routerStep (RouterEvent.response [79, 75]), Op.onConnIOError, Op.Stop,
          Op.close]).closed = sampleConnected.closed ++ [sampleConnected.conn]) :=
  have h := close_guarded sampleConsts (by decide) sampleConnected
    [Op.routerStep (RouterEvent.transaction (sampleTransaction 1) (some (GoError.other 1))),
      Op.routerStep (RouterEvent.response [79, 75]), Op.onConnIOError, Op.Stop, Op.close]
    (by decide)
  ⟨h.2.2.2.1, h.2.2.2.2⟩

/-! ## Who writes to the connection -/

theorem popTransaction_written (k : Consts) (w : Producer) (frameType : Int) (data : Bytes) :
    (popTransaction k w frameType data).written = w.written := by
  unfold popTransaction
  cases w.transactions <;> simp [log]

theorem routerStep_written (k : Consts) (w : Producer) (t : ProducerTransaction)
    (writeErr : Option GoError) :
    (routerStep k w (RouterEvent.transaction t writeErr)).written =
      w.written ++ [(Task.router, w.conn, t.ctx, t.cmd)] := by
  cases writeErr with
  | none => simp [routerStep, connWrite]
  | some err => cases err <;> simp [routerStep, connWrite, log, popTransaction_written]

theorem connect_written (k : Consts) (w : Producer) (ctx : Context)
    (handshake : Option GoError) : (connect k w ctx handshake).2.written = w.written := by
  unfold connect
  split_ifs
  · rfl
  · rfl
  · rfl
  · cases handshake <;> simp [log, connClose]

theorem sendCommandAsync_written (k : Consts) (w : Producer) (ptr : Nat) (ctx : Context)
    (cmd : Command) (doneChan : Option Nat) (args : List Nat) (handshake : Option GoError)
    (sel : Handoff) :
    (sendCommandAsync k w ptr ctx cmd doneChan args handshake sel).2.2.written = w.written := by
  have hc := connect_written k
    { w with concurrentProducers := wrapInt32 (w.concurrentProducers + 1) } ctx handshake
  unfold sendCommandAsync
  simp only
  split_ifs with hs
  · cases h1 : (connect k { w with concurrentProducers := wrapInt32 (w.concurrentProducers + 1) }
        ctx handshake).1 with
    | some err => simpa using hc
    | none => cases sel <;> simpa using hc
  · cases sel <;> rfl

theorem sendCommandAsync_handoff (k : Consts) (w : Producer) (ptr : Nat) (ctx : Context)
    (cmd : Command) (doneChan : Option Nat) (args : List Nat) (handshake : Option GoError)
    (sel : Handoff) (t : ProducerTransaction)
    (h : (sendCommandAsync k w ptr ctx cmd doneChan args handshake sel).2.1 = some t) :
    t = { ptr := ptr, ctx := ctx, cmd := cmd, doneChan := doneChan, Error := none,
          Args := args } := by
  unfold sendCommandAsync at h
  simp only at h
  split at h
  · simp at h
  · cases sel <;> simp at h
    exact h.symm

theorem sendCommand_written (k : Consts) (w : Producer) (ptr : Nat) (chan : Nat)
    (ctx : Context) (cmd : Command) (handshake : Option GoError) (sel : Handoff)
    (reply : ProducerTransaction) :
    (sendCommand k w ptr chan ctx cmd handshake sel reply).2.2.written = w.written := by
  have h := sendCommandAsync_written k w ptr ctx cmd (some chan) [] handshake sel
  unfold sendCommand
  simp only
  split <;> exact h

/-- C10 as stated fails: `Ping` on a connected producer writes the `Nop`
command to the connection from the task of the caller; no transaction is
queued and the Router takes no part. -/
theorem ping_writes_from_caller :
    sampleConnected.state = sampleConsts.StateConnected ∧
    sampleConnected.written = [] ∧
    (Ping sampleConsts sampleConnected none none).2.written =
      [(Task.caller, 1, Context.Background, Command.Nop)] ∧
    (Ping sampleConsts sampleConnected none none).2.transactions = [] := by
  decide

/-- C10, amended (the Router writes every publish command): none of the
synchronous and asynchronous publish operations writes to the connection
from the task of the caller; the transaction such an operation hands over
carries its command and context, and the Router iteration that accepts a
transaction is what writes its command.  `PingWithContext` (and `Ping`)
on a connected producer writes `Nop` from the task of the caller. -/
theorem publish_written_by_router (k : Consts) (w : Producer) (ptr chan : Nat) (ctx : Context)
    (cmd : Command) (topic : String) (body : Bytes) (bodies : List Bytes) (delay : Int)
    (encodeErr : Option GoError) (doneChan : Option Nat) (args : List Nat)
    (handshake : Option GoError) (sel : Handoff) (reply : ProducerTransaction) :
    (sendCommandAsync k w ptr ctx cmd doneChan args handshake sel).2.2.written = w.written ∧
    (sendCommand k w ptr chan ctx cmd handshake sel reply).2.2.written = w.written ∧
    (PublishAsync k w ptr topic body doneChan args handshake sel).2.2.written = w.written ∧
    (PublishAsyncWithContext k w ptr ctx topic body doneChan args handshake sel).2.2.written =
      w.written ∧
    (MultiPublishAsync k w ptr topic bodies encodeErr doneChan args handshake sel).2.2.written =
      w.written ∧
    (MultiPublishAsyncWithContext k w ptr ctx topic bodies encodeErr doneChan args handshake
      sel).2.2.written = w.written ∧
    (Publish k w ptr chan topic body handshake sel reply).2.2.written = w.written ∧
    (PublishWithContext k w ptr chan ctx topic body handshake sel reply).2.2.written =
      w.written ∧
    (MultiPublish k w ptr chan topic bodies encodeErr handshake sel reply).2.2.written =
      w.written ∧
    (MultiPublishWithContext k w ptr chan ctx topic bodies encodeErr handshake sel
      reply).2.2.written = w.written ∧
    (DeferredPublish k w ptr chan topic delay body handshake sel reply).2.2.written =
      w.written ∧
    (DeferredPublishWithContext k w ptr chan ctx topic delay body handshake sel
      reply).2.2.written = w.written ∧
    (DeferredPublishAsync k w ptr topic delay body doneChan args handshake sel).2.2.written =
      w.written ∧
    (DeferredPublishAsyncWithContext k w ptr ctx topic delay body doneChan args handshake
      sel).2.2.written = w.written ∧
    (∀ t, (sendCommandAsync k w ptr ctx cmd doneChan args handshake sel).2.1 = some t →
      t.cmd = cmd ∧ t.ctx = ctx) ∧
    (∀ (w2 : Producer) (t : ProducerTransaction) (writeErr : Option GoError),
      (routerStep k w2 (RouterEvent.transaction t writeErr)).written =
        w2.written ++ [(Task.router, w2.conn, t.ctx, t.cmd)]) ∧
    (w.state = k.StateConnected →
      (PingWithContext k w ctx handshake reply.Error).2.written =
        w.written ++ [(Task.caller, w.conn, ctx, Command.Nop)] ∧
      (Ping k w handshake reply.Error).2.written =
        w.written ++ [(Task.caller, w.conn, Context.Background, Command.Nop)]) := by
  refine ⟨sendCommandAsync_written .., sendCommand_written .., sendCommandAsync_written ..,
    sendCommandAsync_written .., ?_, ?_, sendCommand_written .., sendCommand_written .., ?_,
    ?_, sendCommand_written .., sendCommand_written .., sendCommandAsync_written ..,
    sendCommandAsync_written .., ?_, routerStep_written k, ?_⟩
  · cases encodeErr with
    | none => exact sendCommandAsync_written ..
    | some err => rfl
  · cases encodeErr with
    | none => exact sendCommandAsync_written ..
    | some err => rfl
  · cases encodeErr with
    | none => exact sendCommand_written ..
    | some err => rfl
  · cases encodeErr with
    | none => exact sendCommand_written ..
    | some err => rfl
  · intro t ht
    rw [sendCommandAsync_handoff k w ptr ctx cmd doneChan args handshake sel t ht]
    exact ⟨rfl, rfl⟩
  · intro hs
    simp [Ping, PingWithContext, hs, connWrite]

end NSQ
